import Mathlib

/-
Verification of the request-processing pipeline of the Cloudflare Workers
reverse proxy (src/index.ts).

The worker script is embedded shallowly:

* The `Headers` class is modelled as a list of name/value pairs whose stored
  names are lowercase, exactly as `Headers.entries()` yields them; `get`,
  `set` and `delete` compare names case-insensitively by lowering the query
  name.  Iteration order of a real `Headers` object is sorted, but no code
  path of the worker observes the order of a `Headers` object, only lookups,
  so the list order is irrelevant.
* A plain JavaScript object used as a string map (`filteredHeaders`,
  `allResponseHeaders`) is modelled as an insertion-ordered association list
  with overwrite-on-assignment (`dictSet`).
* Platform primitives that the worker calls but does not define are taken as
  parameters of the model: `new URL(...)` parsing (`parseURL`), `JSON.parse`
  on the X-Custom-Headers value (`xchParse`, which reports failure, a parsed
  `null`, or the `Object.entries` view of the parsed value), and the single
  outbound `fetch` (whose result `originResp` is an input; whether the call
  is issued at all is recorded in the `forwarded` field of the result).
* `decodeURIComponent` is implemented here (percent-unescaping followed by
  strict UTF-8 assembly, returning `none` where the JavaScript builtin
  throws `URIError`), because claims about it quantify over raw strings.
* JavaScript string truthiness (`x || d`, `if (!x)`) is modelled by `jsOr`
  and explicit empty-string tests.

String primitives such as `String.toLower` from the Lean library are
re-implemented over `List Char` (`strLower`, `strStartsWith`, `infixCheck`)
so that every definition evaluates inside the kernel.
-/

namespace CFProxy

/-! ### Character and string primitives -/

/-- ASCII lowercasing of one character, as `String.prototype.toLowerCase`
and the `Headers` class apply it to header names. -/
def charLower (c : Char) : Char :=
  if 65 ≤ c.toNat ∧ c.toNat ≤ 90 then Char.ofNat (c.toNat + 32) else c

/-- Lowercase a whole string. -/
def strLower (s : String) : String := String.mk (s.data.map charLower)

/-- `s` begins with `pre` (the regex anchors `^origin`, `^cf-`, `^x-forw`,
`^x-custom-headers` of the header filter). -/
def strStartsWith (s pre : String) : Bool := pre.data.isPrefixOf s.data

/-- `needle` occurs somewhere in the character list (the unanchored regex
`eferer` of the header filter). -/
def infixCheck (needle : List Char) : List Char → Bool
  | [] => needle.isEmpty
  | c :: t => needle.isPrefixOf (c :: t) || infixCheck needle t

/-! ### Header multimaps and JavaScript object maps -/

/-- A header collection as `Headers.entries()` yields it: lowercase names
paired with values. -/
abbrev HeaderList := List (String × String)

/-- `Headers.get(name)`: case-insensitive lookup, `null` (here `none`) when
absent. -/
def hGet (hs : HeaderList) (name : String) : Option String :=
  (hs.find? (fun p => p.1 == strLower name)).map (fun p => p.2)

/-- `Headers.delete(name)`. -/
def hDelete (hs : HeaderList) (name : String) : HeaderList :=
  hs.filter (fun p => p.1 != strLower name)

/-- `Headers.set(name, value)`: replaces any existing entry for the
lowercased name. -/
def hSet (hs : HeaderList) (name v : String) : HeaderList :=
  hDelete hs name ++ [(strLower name, v)]

/-- The normalisation `Headers.entries()` applies to stored names. -/
def entriesOf (hs : HeaderList) : HeaderList :=
  hs.map (fun p => (strLower p.1, p.2))

/-- JavaScript object property assignment `d[k] = v`: overwrite in place if
the key exists, append otherwise. -/
def dictSet (d : List (String × String)) (k v : String) : List (String × String) :=
  if d.any (fun p => p.1 == k) then
    d.map (fun p => if p.1 == k then (k, v) else p)
  else d ++ [(k, v)]

/-- JavaScript object property read `d[k]` (exact key match). -/
def dictGet (d : List (String × String)) (k : String) : Option String :=
  (d.find? (fun p => p.1 == k)).map (fun p => p.2)

/-- JavaScript `x || d` on a nullable string: `null` and `""` are falsy. -/
def jsOr (x : Option String) (d : String) : String :=
  match x with
  | none => d
  | some s => if s == "" then d else s

/-! ### JSON.stringify for string-valued objects -/

/-- Lowercase hexadecimal digit. -/
def hexDigitChar (n : Nat) : Char :=
  if n < 10 then Char.ofNat (48 + n) else Char.ofNat (87 + n)

/-- The escape `JSON.stringify` applies to one character of a string. -/
def jsonEscapeChar (c : Char) : List Char :=
  if c = '\"' then ['\\', '\"']
  else if c = '\\' then ['\\', '\\']
  else if c = '\n' then ['\\', 'n']
  else if c = '\r' then ['\\', 'r']
  else if c = '\t' then ['\\', 't']
  else if c.toNat = 8 then ['\\', 'b']
  else if c.toNat = 12 then ['\\', 'f']
  else if c.toNat < 32 then
    ['\\', 'u', '0', '0', hexDigitChar (c.toNat / 16), hexDigitChar (c.toNat % 16)]
  else [c]

/-- A JSON string literal. -/
def jsonQuote (s : String) : String :=
  String.mk ('\"' :: s.data.foldr (fun c acc => jsonEscapeChar c ++ acc) ['\"'])

/-- `JSON.stringify` of an object whose values are strings. -/
def jsonStringifyObj (d : List (String × String)) : String :=
  "\x7b" ++ String.intercalate "," (d.map (fun p => jsonQuote p.1 ++ ":" ++ jsonQuote p.2)) ++ "\x7d"

/-! ### decodeURIComponent -/

/-- Value of one hexadecimal digit character. -/
def hexVal (c : Char) : Option Nat :=
  if 48 ≤ c.toNat ∧ c.toNat ≤ 57 then some (c.toNat - 48)
  else if 65 ≤ c.toNat ∧ c.toNat ≤ 70 then some (c.toNat - 55)
  else if 97 ≤ c.toNat ∧ c.toNat ≤ 102 then some (c.toNat - 87)
  else none

/-- First phase of `decodeURIComponent`: each `%XX` escape becomes an octet
(`Sum.inr`), every other character passes through (`Sum.inl`); a `%` not
followed by two hexadecimal digits makes the whole decode throw. -/
def percentUnescape : List Char → Option (List (Char ⊕ Nat))
  | [] => some []
  | c :: t =>
    if c = '%' then
      match t with
      | a :: b :: t2 =>
        match hexVal a, hexVal b with
        | some hi, some lo => (percentUnescape t2).map (fun r => Sum.inr (hi * 16 + lo) :: r)
        | _, _ => none
      | _ => none
    else (percentUnescape t).map (fun r => Sum.inl c :: r)

/-- UTF-8 continuation octet. -/
def isCont (b : Nat) : Bool := 128 ≤ b && b ≤ 191

/-- Second phase of `decodeURIComponent`: octets coming from escapes must
form valid (shortest-form, scalar-value) UTF-8 sequences, all of whose
octets come from escapes; anything else throws. -/
def utf8Assemble : List (Char ⊕ Nat) → Option (List Char)
  | [] => some []
  | Sum.inl c :: t => (utf8Assemble t).map (fun r => c :: r)
  | Sum.inr b1 :: t =>
    if b1 < 128 then (utf8Assemble t).map (fun r => Char.ofNat b1 :: r)
    else if 194 ≤ b1 && b1 ≤ 223 then
      match t with
      | Sum.inr b2 :: t2 =>
        if isCont b2 then
          (utf8Assemble t2).map (fun r => Char.ofNat ((b1 - 192) * 64 + (b2 - 128)) :: r)
        else none
      | _ => none
    else if 224 ≤ b1 && b1 ≤ 239 then
      match t with
      | Sum.inr b2 :: Sum.inr b3 :: t2 =>
        let cp := (b1 - 224) * 4096 + (b2 - 128) * 64 + (b3 - 128)
        if isCont b2 && isCont b3 && decide (2048 ≤ cp) &&
            !(decide (55296 ≤ cp) && decide (cp ≤ 57343)) then
          (utf8Assemble t2).map (fun r => Char.ofNat cp :: r)
        else none
      | _ => none
    else if 240 ≤ b1 && b1 ≤ 244 then
      match t with
      | Sum.inr b2 :: Sum.inr b3 :: Sum.inr b4 :: t2 =>
        let cp := (b1 - 240) * 262144 + (b2 - 128) * 4096 + (b3 - 128) * 64 + (b4 - 128)
        if isCont b2 && isCont b3 && isCont b4 && decide (65536 ≤ cp) && decide (cp ≤ 1114111) then
          (utf8Assemble t2).map (fun r => Char.ofNat cp :: r)
        else none
      | _ => none
    else none

/-- `decodeURIComponent`: `none` where the builtin throws `URIError`. -/
def decodeURIComponent (s : String) : Option String :=
  match percentUnescape s.data with
  | none => none
  | some toks =>
    match utf8Assemble toks with
    | none => none
    | some cs => some (String.mk cs)

/-- Two hexadecimal digits begin the list. -/
def twoHexAhead : List Char → Bool
  | [] => false
  | [_] => false
  | a :: b :: _ => (hexVal a).isSome && (hexVal b).isSome

/-- The string contains a `%` character not followed by two hexadecimal
digits. -/
def hasBadPercent : List Char → Bool
  | [] => false
  | c :: t => (c == '%' && !twoHexAhead t) || hasBadPercent t

/-! ### Configuration and access policy (isAllowedTarget) -/

/-- The environment bindings `WHITELISTED_DOMAINS` / `BLACKLISTED_DOMAINS`,
each possibly absent. -/
structure Env where
  WHITELISTED_DOMAINS : Option (List String)
  BLACKLISTED_DOMAINS : Option (List String)

/-- The piece of a parsed `URL` object the worker consults. -/
structure URLRec where
  hostname : String

/-- `env.XS?.includes(h)` : `undefined` when the list is unconfigured,
otherwise the boolean membership test. -/
def jsIncludesOpt (l : Option (List String)) (x : String) : Option Bool :=
  l.map (fun ls => ls.contains x)

/-- `isAllowedTarget` from src/index.ts: a truthy
`BLACKLISTED_DOMAINS?.includes` denies; then
`WHITELISTED_DOMAINS?.includes === false` denies; otherwise allowed. -/
def isAllowedTarget (url : URLRec) (env : Env) : Bool :=
  if (jsIncludesOpt env.BLACKLISTED_DOMAINS url.hostname).getD false then false
  else if jsIncludesOpt env.WHITELISTED_DOMAINS url.hostname == some false then false
  else true

/-! ### Requests, responses and the X-Custom-Headers parse -/

/-- The incoming request as the handler reads it: `searchParams` is the
already-parsed (and therefore once percent-decoded) query pair list of the
incoming URL, `headers` the entries of its `Headers` object,
`originUrlOrigin` the `origin` of the incoming URL, and the `cf` fields the
optional connection metadata. -/
structure Incoming where
  method : String
  searchParams : List (String × String)
  headers : HeaderList
  originUrlOrigin : String
  cfCountry : Option String
  cfColo : Option String

/-- What `fetch(targetUrl, newRequest)` returned. -/
structure OriginResponse where
  status : Nat
  statusText : String
  headers : HeaderList
  body : String

/-- The result of `JSON.parse` on an X-Custom-Headers value, reduced to
what the worker consumes: failure (the exception caught by the empty
`catch`), a parsed `null` (which the `!== null` guard skips), or the
`Object.entries` view of the parsed value. -/
inductive XCHParse where
  | failed : XCHParse
  | isNull : XCHParse
  | entries : List (String × String) → XCHParse

/-- `Object.entries` of a JavaScript string: index/character pairs. -/
def stringEntries (s : String) : List (String × String) :=
  s.data.enum.map (fun p => (toString p.1, String.mk [p.2]))

/-- The key/value pairs the custom-header loop iterates over: `none` when
`customHeaders` is `null` (header absent, or its value parsed to JSON
`null`); after a parse failure `customHeaders` still holds the raw string,
so `Object.entries` enumerates its characters. -/
def customEntries (xchParse : String → XCHParse) (reqHeaders : HeaderList) :
    Option (List (String × String)) :=
  match hGet reqHeaders "X-Custom-Headers" with
  | none => none
  | some raw =>
    match xchParse raw with
    | XCHParse.isNull => none
    | XCHParse.entries kvs => some kvs
    | XCHParse.failed => some (stringEntries raw)

/-- The header-name filter of the forwarding loop: a name is dropped when
any of the five regexes `^origin`, `eferer`, `^cf-`, `^x-forw`,
`^x-custom-headers` matches it (names from `entries()` are lowercase). -/
def isFilteredOut (key : String) : Bool :=
  strStartsWith key "origin" || infixCheck "eferer".data key.data ||
    strStartsWith key "cf-" || strStartsWith key "x-forw" ||
    strStartsWith key "x-custom-headers"

/-- The `filteredHeaders` object after the filtering loop. -/
def filteredHeadersOf (reqHeaders : HeaderList) : List (String × String) :=
  (entriesOf reqHeaders).foldl
    (fun d p => if isFilteredOut p.1 then d else dictSet d p.1 p.2) []

/-- The `filteredHeaders` object after the custom-header loop has run (when
`customHeaders !== null`). -/
def outboundHeaders (xchParse : String → XCHParse) (reqHeaders : HeaderList) :
    List (String × String) :=
  match customEntries xchParse reqHeaders with
  | none => filteredHeadersOf reqHeaders
  | some kvs => kvs.foldl (fun d p => dictSet d p.1 p.2) (filteredHeadersOf reqHeaders)

/-! ### CORS synthesis (setupCORSHeaders) -/

/-- `setupCORSHeaders` from src/index.ts, acting on a copy of the origin
response headers. -/
def setupCORSHeaders (req : Incoming) (headers : HeaderList) : HeaderList :=
  let headers := hSet headers "Access-Control-Allow-Origin"
    (jsOr (hGet req.headers "Origin") req.originUrlOrigin)
  if req.method == "OPTIONS" then
    let headers := hSet headers "Access-Control-Allow-Methods"
      (jsOr (hGet req.headers "access-control-request-method")
        "GET, POST, PUT, DELETE, OPTIONS")
    let headers :=
      match hGet req.headers "access-control-request-headers" with
      | none => headers
      | some requested =>
        if requested == "" then headers
        else hSet headers "Access-Control-Allow-Headers" requested
    hDelete headers "X-Content-Type-Options"
  else headers

/-! ### The fetch handler -/

/-- The final `Response` handed back to the client.  For the plain-text
informational and error responses the platform default headers are not
modelled (no claim inspects them) and the body text is kept verbatim. -/
structure Response where
  status : Nat
  statusText : String
  headers : HeaderList
  body : Option String

/-- The single outbound request, when one is issued: the decoded target URL
string, its parse, the forwarded method and the header object passed to the
`Request` constructor. -/
structure OutboundRequest where
  url : String
  targetUrl : URLRec
  method : String
  headers : List (String × String)

/-- A run of the handler: the response produced, and the forwarded call if
one was issued (`fetch` runs exactly once on the success path and never on
the short-circuit paths). -/
structure HandleResult where
  response : Response
  forwarded : Option OutboundRequest

/-- The usage text prefixed to every informational or error body. -/
def baseResponse (originUrlOrigin : String) : String :=
  "Cloudflare Workers as a Reverse Proxy!\n" ++
    "(c) 2025 lunaiz. Co., Ltd. (https://lunaiz.com)\n\n" ++
    "Source:\nhttps://github.com/lunaiz-corp/cloudflare-reverse-proxy.git\n\n" ++
    "Usage:\n" ++ originUrlOrigin ++ "/?url=\x7buri\x7d\n" ++
    "* Header origin or x-requested-with must be set by the client.\n" ++
    "* Target URL must be URL-encoded fully (Example: \x27url=https%253A%252F%252Fexample.com%252F%253Ftest\x27).\n" ++
    "* Forbidden headers such as Cookies should be set via \"X-Custom-Headers\" header as a JSON object string.\n\n" ++
    "Donate:\nhttps://github.com/sponsors/lunaiz-corp\n\n" ++
    "----------------------------\n\n"

/-- The 200 informational response returned when no target parameter is
present. -/
def infoResponse (req : Incoming) : Response :=
  { status := 200
    statusText := "OK"
    headers := []
    body := some (baseResponse req.originUrlOrigin ++
      "Connecting Info:\n" ++
      "* Origin: " ++ jsOr (hGet req.headers "Origin") "Unknown" ++ "\n" ++
      "* IP: " ++ jsOr (hGet req.headers "CF-Connecting-IP") "Unknown" ++ "\n" ++
      "* Country: " ++ jsOr req.cfCountry "Unknown" ++ "\n" ++
      "* Data Centre: " ++ jsOr req.cfColo "Unknown" ++ "\n" ++
      "* X-Custom-Headers: " ++ jsOr (hGet req.headers "X-Custom-Headers") "None") }

/-- The 400 response for more than one query parameter. -/
def multiQueryResponse (req : Incoming) : Response :=
  { status := 400
    statusText := "Bad Request"
    headers := []
    body := some (baseResponse req.originUrlOrigin ++
      "** Error: Multiple query parameters detected. Please ensure the target URL is fully URL-encoded.") }

/-- The 400 response for an undecodable or unparsable target URL. -/
def invalidUrlResponse (req : Incoming) : Response :=
  { status := 400
    statusText := "Bad Request"
    headers := []
    body := some (baseResponse req.originUrlOrigin ++
      "** Error: Invalid target URL. Please ensure the target URL is fully URL-encoded.") }

/-- The 403 response for a target denied by the access policy. -/
def forbiddenResponse (req : Incoming) : Response :=
  { status := 403
    statusText := "Forbidden"
    headers := []
    body := some (baseResponse req.originUrlOrigin ++
      "** Error: Target URL is not allowed by administrator. If this issue persists, please contact administrator for assistance.") }

/-- The response-header synthesis of the success path: CORS layering over a
copy of the origin response headers, then the `x-received-headers` snapshot
(a JSON dump of the object collected from `response.headers.entries()`) and
the `Access-Control-Expose-Headers` join. -/
def finalResponseHeaders (req : Incoming) (originResp : OriginResponse) : HeaderList :=
  let responseHeaders := setupCORSHeaders req originResp.headers
  let allResponseHeaders := originResp.headers.foldl (fun d p => dictSet d p.1 p.2) []
  let exposedHeaders := originResp.headers.map (fun p => p.1) ++ ["x-received-headers"]
  let responseHeaders := hSet responseHeaders "x-received-headers"
    (jsonStringifyObj allResponseHeaders)
  hSet responseHeaders "Access-Control-Expose-Headers"
    (String.intercalate "," exposedHeaders)

/-- The success path of the handler: the forwarded call together with the
final response (status/text/body forced for a preflight). -/
def successResult (xchParse : String → XCHParse) (originResp : OriginResponse)
    (req : Incoming) (decoded : String) (targetUrl : URLRec) : HandleResult :=
  let isPreflightRequest := req.method == "OPTIONS"
  { response :=
      { status := if isPreflightRequest then 200 else originResp.status
        statusText := if isPreflightRequest then "OK" else originResp.statusText
        headers := finalResponseHeaders req originResp
        body := if isPreflightRequest then none else some originResp.body }
    forwarded := some
      { url := decoded
        targetUrl := targetUrl
        method := req.method
        headers := outboundHeaders xchParse req.headers } }

/-- The `fetch` handler of src/index.ts.  `parseURL` stands for `new URL`,
`xchParse` for `JSON.parse` on the override header, and `originResp` for
the response of the (at most one) outbound `fetch`. -/
def handle (parseURL : String → Option URLRec) (xchParse : String → XCHParse)
    (originResp : OriginResponse) (req : Incoming) (env : Env) : HandleResult :=
  let targetUrlParam := (req.searchParams.find? (fun p => p.1 == "url")).map (fun p => p.2)
  match targetUrlParam with
  | none => { response := infoResponse req, forwarded := none }
  | some s =>
    if s == "" then { response := infoResponse req, forwarded := none }
    else if 1 < req.searchParams.length then
      { response := multiQueryResponse req, forwarded := none }
    else
      match decodeURIComponent s with
      | none => { response := invalidUrlResponse req, forwarded := none }
      | some decoded =>
        match parseURL decoded with
        | none => { response := invalidUrlResponse req, forwarded := none }
        | some targetUrl =>
          if isAllowedTarget targetUrl env then
            successResult xchParse originResp req decoded targetUrl
          else { response := forbiddenResponse req, forwarded := none }

/-! ### Lemmas about the header and object primitives -/

theorem find?_filter_of_imp {α : Type} (l : List α) (p q : α → Bool)
    (h : ∀ x, q x = false → p x = false) : (l.filter q).find? p = l.find? p := by
  induction l with
  | nil => rfl
  | cons a t ih =>
    by_cases hq : q a = true
    · simp only [List.filter_cons, hq, if_true]
      by_cases hp : p a = true
      · simp [List.find?_cons, hp]
      · simp only [Bool.not_eq_true] at hp
        simp [List.find?_cons, hp, ih]
    · simp only [Bool.not_eq_true] at hq
      have hp := h a hq
      simp [List.filter_cons, hq, List.find?_cons, hp, ih]

theorem hGet_hSet_self (hs : HeaderList) (n v : String) :
    hGet (hSet hs n v) n = some v := by
  unfold hGet hSet hDelete
  rw [List.find?_append]
  have h1 : (hs.filter (fun p => p.1 != strLower n)).find? (fun p => p.1 == strLower n) = none := by
    rw [List.find?_eq_none]
    intro x hx
    rw [List.mem_filter] at hx
    simpa using hx.2
  simp [h1]

theorem hGet_hSet_ne (hs : HeaderList) (n n' v : String)
    (h : strLower n' ≠ strLower n) : hGet (hSet hs n v) n' = hGet hs n' := by
  unfold hGet hSet hDelete
  rw [List.find?_append]
  rw [find?_filter_of_imp hs (fun p => p.1 == strLower n') (fun p => p.1 != strLower n)
    (by
      intro x hx
      simp only [bne, Bool.not_eq_false', beq_iff_eq] at hx
      simp [hx, (Ne.symm h)])]
  have h2 : (([(strLower n, v)] : HeaderList).find? (fun p => p.1 == strLower n')) = none := by
    simp [List.find?_cons, (Ne.symm h)]
  cases hfind : hs.find? (fun p => p.1 == strLower n') <;> simp [h2, Option.or]

theorem hGet_hDelete_ne (hs : HeaderList) (n n' : String)
    (h : strLower n' ≠ strLower n) : hGet (hDelete hs n) n' = hGet hs n' := by
  unfold hGet hDelete
  rw [find?_filter_of_imp hs (fun p => p.1 == strLower n') (fun p => p.1 != strLower n)
    (by
      intro x hx
      simp only [bne, Bool.not_eq_false', beq_iff_eq] at hx
      simp [hx, (Ne.symm h)])]

theorem find?_map_overwrite (t : List (String × String)) (k v : String)
    (h : t.any (fun p => p.1 == k) = true) :
    (t.map (fun p => if p.1 == k then (k, v) else p)).find? (fun p => p.1 == k) = some (k, v) := by
  induction t with
  | nil => simp at h
  | cons p t ih =>
    by_cases hp : (p.1 == k) = true
    · have hhead : (if p.1 == k then (k, v) else p) = (k, v) := if_pos hp
      rw [List.map_cons, hhead, List.find?_cons]
      simp
    · have hp' : (p.1 == k) = false := by simpa using hp
      have hhead : (if p.1 == k then (k, v) else p) = p := if_neg (by simp [hp'])
      rw [List.map_cons, hhead, List.find?_cons]
      simp only [List.any_cons, hp', Bool.false_or] at h
      simp only [hp']
      exact ih h

theorem dictGet_dictSet_self (d : List (String × String)) (k v : String) :
    dictGet (dictSet d k v) k = some v := by
  unfold dictGet dictSet
  by_cases h : d.any (fun p => p.1 == k) = true
  · simp only [h, if_true]
    rw [find?_map_overwrite d k v h]
    rfl
  · simp only [Bool.not_eq_true] at h
    simp only [h, Bool.false_eq_true, if_false]
    rw [List.find?_append]
    have h1 : d.find? (fun p => p.1 == k) = none := by
      rw [List.find?_eq_none]
      intro x hx
      rw [List.any_eq_false] at h
      simpa using h x hx
    simp [h1]

theorem mem_dictSet {d : List (String × String)} {k v : String} {x : String × String}
    (hx : x ∈ dictSet d k v) : x ∈ d ∨ x = (k, v) := by
  unfold dictSet at hx
  by_cases h : d.any (fun p => p.1 == k) = true
  · simp only [h, if_true] at hx
    rw [List.mem_map] at hx
    obtain ⟨p, hp, hfx⟩ := hx
    by_cases hk : p.1 == k
    · simp only [hk, if_true] at hfx
      exact Or.inr hfx.symm
    · simp only [hk, Bool.false_eq_true, if_false] at hfx
      exact Or.inl (hfx ▸ hp)
  · simp only [Bool.not_eq_true] at h
    simp only [h, Bool.false_eq_true, if_false, List.mem_append, List.mem_singleton] at hx
    exact hx

theorem mem_foldl_dictSet {x : String × String} :
    ∀ (l : List (String × String)) (d : List (String × String)),
      x ∈ l.foldl (fun d p => dictSet d p.1 p.2) d → x ∈ d ∨ x ∈ l := by
  intro l
  induction l with
  | nil => intro d h; exact Or.inl h
  | cons p t ih =>
    intro d h
    rw [List.foldl_cons] at h
    rcases ih (dictSet d p.1 p.2) h with h1 | h1
    · rcases mem_dictSet h1 with h2 | h2
      · exact Or.inl h2
      · exact Or.inr (by simp [h2])
    · exact Or.inr (List.mem_cons_of_mem _ h1)

theorem foldl_dictSet_of_disjoint :
    ∀ (l : List (String × String)) (d : List (String × String)),
      (l.map Prod.fst).Nodup →
      (∀ k ∈ l.map Prod.fst, d.any (fun p => p.1 == k) = false) →
      l.foldl (fun d p => dictSet d p.1 p.2) d = d ++ l := by
  intro l
  induction l with
  | nil => intro d _ _; simp
  | cons p t ih =>
    intro d hnd hdisj
    rw [List.foldl_cons]
    have hany : d.any (fun q => q.1 == p.1) = false := hdisj p.1 (by simp)
    have hset : dictSet d p.1 p.2 = d ++ [(p.1, p.2)] := by
      unfold dictSet
      simp [hany]
    rw [hset]
    rw [List.map_cons, List.nodup_cons] at hnd
    have hrec := ih (d ++ [(p.1, p.2)]) hnd.2 (by
      intro k hk
      rw [List.any_append]
      have h1 : d.any (fun q => q.1 == k) = false := hdisj k (by simp [hk])
      have h2 : ([(p.1, p.2)] : List (String × String)).any (fun q => q.1 == k) = false := by
        have : p.1 ≠ k := fun he => hnd.1 (he ▸ hk)
        simp [this]
      simp [h1, h2])
    rw [hrec, List.append_assoc]
    simp

theorem foldl_dictSet_nodup (l : List (String × String))
    (hnd : (l.map Prod.fst).Nodup) :
    l.foldl (fun d p => dictSet d p.1 p.2) [] = l := by
  have := foldl_dictSet_of_disjoint l [] hnd (by intro k _; rfl)
  simpa using this

theorem mem_filteredHeadersOf {x : String × String} (reqHeaders : HeaderList)
    (hx : x ∈ filteredHeadersOf reqHeaders) : isFilteredOut x.1 = false := by
  unfold filteredHeadersOf at hx
  have inv : ∀ (l : HeaderList) (d : List (String × String)),
      (∀ y ∈ d, isFilteredOut y.1 = false) →
      ∀ y ∈ l.foldl (fun d p => if isFilteredOut p.1 then d else dictSet d p.1 p.2) d,
        isFilteredOut y.1 = false := by
    intro l
    induction l with
    | nil => intro d hd y hy; exact hd y hy
    | cons p t ih =>
      intro d hd y hy
      rw [List.foldl_cons] at hy
      by_cases hp : isFilteredOut p.1 = true
      · simp only [hp, if_true] at hy
        exact ih d hd y hy
      · simp only [Bool.not_eq_true] at hp
        simp only [hp, Bool.false_eq_true, if_false] at hy
        refine ih (dictSet d p.1 p.2) ?_ y hy
        intro z hz
        rcases mem_dictSet hz with h1 | h1
        · exact hd z h1
        · rw [h1]; exact hp
  exact inv (entriesOf reqHeaders) [] (by intro y hy; cases hy) x hx

/-! ### Lemmas about decodeURIComponent -/

theorem hexVal_percent : hexVal '%' = none := by decide

theorem ne_percent_of_hexVal {a : Char} {n : Nat} (h : hexVal a = some n) : a ≠ '%' := by
  intro he
  rw [he, hexVal_percent] at h
  exact Option.noConfusion h

theorem percentUnescape_cons_ne (c : Char) (t : List Char) (hc : c ≠ '%') :
    percentUnescape (c :: t) = (percentUnescape t).map (fun r => Sum.inl c :: r) := by
  rw [percentUnescape.eq_def]
  simp only []
  rw [if_neg hc]

theorem percentUnescape_none_of_bad :
    ∀ l : List Char, hasBadPercent l = true → percentUnescape l = none := by
  intro l
  induction l with
  | nil => intro h; simp [hasBadPercent] at h
  | cons c t ih =>
    intro h
    simp only [hasBadPercent, Bool.or_eq_true, Bool.and_eq_true, beq_iff_eq,
      Bool.not_eq_true'] at h
    by_cases hc : c = '%'
    · subst hc
      cases t with
      | nil => rfl
      | cons a t1 =>
        cases t1 with
        | nil => rfl
        | cons b t2 =>
          have heq : percentUnescape ('%' :: a :: b :: t2) =
              (match hexVal a, hexVal b with
                | some hi, some lo =>
                  (percentUnescape t2).map (fun r => Sum.inr (hi * 16 + lo) :: r)
                | _, _ => none) := rfl
          rw [heq]
          cases hva : hexVal a with
          | none => simp [hva]
          | some hi =>
            cases hvb : hexVal b with
            | none => simp [hva, hvb]
            | some lo =>
              simp only [hva, hvb]
              have htwo : twoHexAhead (a :: b :: t2) = true := by
                simp [twoHexAhead, hva, hvb]
              rcases h with ⟨-, h1⟩ | h1
              · rw [htwo] at h1
                exact absurd h1 (by simp)
              · have une := ih h1
                rw [percentUnescape_cons_ne a _ (ne_percent_of_hexVal hva),
                  Option.map_eq_none'] at une
                rw [percentUnescape_cons_ne b _ (ne_percent_of_hexVal hvb),
                  Option.map_eq_none'] at une
                rw [une]
                rfl
    · rcases h with ⟨h1, -⟩ | h1
      · exact absurd h1 hc
      · rw [percentUnescape_cons_ne c t hc, ih h1]
        rfl

theorem decodeURIComponent_none_of_bad (s : String)
    (h : hasBadPercent s.data = true) : decodeURIComponent s = none := by
  unfold decodeURIComponent
  rw [percentUnescape_none_of_bad s.data h]

/-! ### Branch lemmas for the handler -/

theorem handle_eq_info_empty (parseURL : String → Option URLRec)
    (xchParse : String → XCHParse) (originResp : OriginResponse) (req : Incoming)
    (env : Env)
    (hfind : req.searchParams.find? (fun p => p.1 == "url") = some ("url", "")) :
    handle parseURL xchParse originResp req env =
      { response := infoResponse req, forwarded := none } := by
  simp [handle, hfind]

theorem handle_eq_multi (parseURL : String → Option URLRec)
    (xchParse : String → XCHParse) (originResp : OriginResponse) (req : Incoming)
    (env : Env) (s : String)
    (hfind : req.searchParams.find? (fun p => p.1 == "url") = some ("url", s))
    (hse : s ≠ "") (hlen : 1 < req.searchParams.length) :
    handle parseURL xchParse originResp req env =
      { response := multiQueryResponse req, forwarded := none } := by
  have hbeq : (s == "") = false := beq_eq_false_iff_ne.mpr hse
  simp [handle, hfind, hbeq, hlen]

theorem handle_eq_invalid (parseURL : String → Option URLRec)
    (xchParse : String → XCHParse) (originResp : OriginResponse) (req : Incoming)
    (env : Env) (s : String)
    (hfind : req.searchParams.find? (fun p => p.1 == "url") = some ("url", s))
    (hse : s ≠ "") (hlen : ¬ 1 < req.searchParams.length)
    (hdec : decodeURIComponent s = none) :
    handle parseURL xchParse originResp req env =
      { response := invalidUrlResponse req, forwarded := none } := by
  have hbeq : (s == "") = false := beq_eq_false_iff_ne.mpr hse
  simp [handle, hfind, hbeq, hlen, hdec]

theorem handle_eq_denied (parseURL : String → Option URLRec)
    (xchParse : String → XCHParse) (originResp : OriginResponse) (req : Incoming)
    (env : Env) (s decoded : String) (u : URLRec)
    (hq : req.searchParams = [("url", s)]) (hse : s ≠ "")
    (hdec : decodeURIComponent s = some decoded)
    (hp : parseURL decoded = some u)
    (ha : isAllowedTarget u env = false) :
    handle parseURL xchParse originResp req env =
      { response := forbiddenResponse req, forwarded := none } := by
  have hbeq : (s == "") = false := beq_eq_false_iff_ne.mpr hse
  simp [handle, hq, hbeq, hdec, hp, ha]

theorem handle_eq_success (parseURL : String → Option URLRec)
    (xchParse : String → XCHParse) (originResp : OriginResponse) (req : Incoming)
    (env : Env) (s decoded : String) (u : URLRec)
    (hq : req.searchParams = [("url", s)]) (hse : s ≠ "")
    (hdec : decodeURIComponent s = some decoded)
    (hp : parseURL decoded = some u)
    (ha : isAllowedTarget u env = true) :
    handle parseURL xchParse originResp req env =
      successResult xchParse originResp req decoded u := by
  have hbeq : (s == "") = false := beq_eq_false_iff_ne.mpr hse
  simp [handle, hq, hbeq, hdec, hp, ha]

theorem forwarded_headers_eq (parseURL : String → Option URLRec)
    (xchParse : String → XCHParse) (originResp : OriginResponse) (req : Incoming)
    (env : Env) (r : OutboundRequest)
    (hf : (handle parseURL xchParse originResp req env).forwarded = some r) :
    r.headers = outboundHeaders xchParse req.headers := by
  simp only [handle] at hf
  split at hf
  · exact absurd hf (by simp)
  · split at hf
    · exact absurd hf (by simp)
    · split at hf
      · exact absurd hf (by simp)
      · split at hf
        · exact absurd hf (by simp)
        · split at hf
          · exact absurd hf (by simp)
          · split at hf
            · simp only [successResult, Option.some.injEq] at hf
              rw [← hf]
            · exact absurd hf (by simp)

/-! ### Lemmas about the access policy -/

theorem isAllowed_false_of_denied (u : URLRec) (env : Env) (bl : List String)
    (hb : env.BLACKLISTED_DOMAINS = some bl) (hm : u.hostname ∈ bl) :
    isAllowedTarget u env = false := by
  have hc : (jsIncludesOpt env.BLACKLISTED_DOMAINS u.hostname).getD false = true := by
    rw [hb]
    simpa [jsIncludesOpt] using hm
  unfold isAllowedTarget
  rw [hc]
  rfl

theorem isAllowed_true_of_not_excluded (u : URLRec) (env : Env)
    (hb : (jsIncludesOpt env.BLACKLISTED_DOMAINS u.hostname).getD false = false)
    (hw : env.WHITELISTED_DOMAINS = none ∨
      jsIncludesOpt env.WHITELISTED_DOMAINS u.hostname = some true) :
    isAllowedTarget u env = true := by
  unfold isAllowedTarget
  rw [hb]
  rcases hw with hw | hw
  · simp [jsIncludesOpt, hw]
  · simp [hw]

/-! ### Lookup lemmas for the synthesized response headers -/

theorem hGet_final_xrh (req : Incoming) (originResp : OriginResponse) :
    hGet (finalResponseHeaders req originResp) "x-received-headers" =
      some (jsonStringifyObj (originResp.headers.foldl (fun d p => dictSet d p.1 p.2) [])) := by
  simp only [finalResponseHeaders]
  rw [hGet_hSet_ne _ _ _ _ (by decide), hGet_hSet_self]

theorem hGet_final_aceh (req : Incoming) (originResp : OriginResponse) :
    hGet (finalResponseHeaders req originResp) "Access-Control-Expose-Headers" =
      some (String.intercalate ","
        (originResp.headers.map (fun p => p.1) ++ ["x-received-headers"])) := by
  simp only [finalResponseHeaders]
  rw [hGet_hSet_self]

theorem hGet_final_acam (req : Incoming) (originResp : OriginResponse)
    (hm : req.method = "OPTIONS") :
    hGet (finalResponseHeaders req originResp) "Access-Control-Allow-Methods" =
      some (jsOr (hGet req.headers "access-control-request-method")
        "GET, POST, PUT, DELETE, OPTIONS") := by
  have hmb : (req.method == "OPTIONS") = true := by simp [hm]
  cases hr : hGet req.headers "access-control-request-headers" with
  | none =>
    simp only [finalResponseHeaders, setupCORSHeaders, hmb, if_true, hr]
    rw [hGet_hSet_ne _ _ _ _ (by decide), hGet_hSet_ne _ _ _ _ (by decide),
      hGet_hDelete_ne _ _ _ (by decide), hGet_hSet_self]
  | some v =>
    by_cases hv : (v == "") = true
    · simp only [finalResponseHeaders, setupCORSHeaders, hmb, if_true, hr, hv]
      rw [hGet_hSet_ne _ _ _ _ (by decide), hGet_hSet_ne _ _ _ _ (by decide),
        hGet_hDelete_ne _ _ _ (by decide), hGet_hSet_self]
    · have hv' : (v == "") = false := by simpa using hv
      simp only [finalResponseHeaders, setupCORSHeaders, hmb, if_true, hr, hv',
        Bool.false_eq_true, if_false]
      rw [hGet_hSet_ne _ _ _ _ (by decide), hGet_hSet_ne _ _ _ _ (by decide),
        hGet_hDelete_ne _ _ _ (by decide), hGet_hSet_ne _ _ _ _ (by decide),
        hGet_hSet_self]

theorem hGet_final_acah_some (req : Incoming) (originResp : OriginResponse)
    (hm : req.method = "OPTIONS") (v : String)
    (hr : hGet req.headers "access-control-request-headers" = some v) (hv : v ≠ "") :
    hGet (finalResponseHeaders req originResp) "Access-Control-Allow-Headers" = some v := by
  have hmb : (req.method == "OPTIONS") = true := by simp [hm]
  have hv' : (v == "") = false := beq_eq_false_iff_ne.mpr hv
  simp only [finalResponseHeaders, setupCORSHeaders, hmb, if_true, hr, hv',
    Bool.false_eq_true, if_false]
  rw [hGet_hSet_ne _ _ _ _ (by decide), hGet_hSet_ne _ _ _ _ (by decide),
    hGet_hDelete_ne _ _ _ (by decide), hGet_hSet_self]

theorem hGet_final_acah_untouched (req : Incoming) (originResp : OriginResponse)
    (hm : req.method = "OPTIONS")
    (hr : hGet req.headers "access-control-request-headers" = none ∨
      hGet req.headers "access-control-request-headers" = some "") :
    hGet (finalResponseHeaders req originResp) "Access-Control-Allow-Headers" =
      hGet originResp.headers "Access-Control-Allow-Headers" := by
  have hmb : (req.method == "OPTIONS") = true := by simp [hm]
  rcases hr with hr | hr
  · simp only [finalResponseHeaders, setupCORSHeaders, hmb, if_true, hr]
    rw [hGet_hSet_ne _ _ _ _ (by decide), hGet_hSet_ne _ _ _ _ (by decide),
      hGet_hDelete_ne _ _ _ (by decide), hGet_hSet_ne _ _ _ _ (by decide),
      hGet_hSet_ne _ _ _ _ (by decide)]
  · simp only [finalResponseHeaders, setupCORSHeaders, hmb, if_true, hr, beq_self_eq_true]
    rw [hGet_hSet_ne _ _ _ _ (by decide), hGet_hSet_ne _ _ _ _ (by decide),
      hGet_hDelete_ne _ _ _ (by decide), hGet_hSet_ne _ _ _ _ (by decide),
      hGet_hSet_ne _ _ _ _ (by decide)]

/-! ### Claim C1 -/

/-- C1: the claim states that a malformed `X-Custom-Headers` value is
swallowed with no overrides applied, the outbound header set being exactly
the filtered incoming set.  The code intends this (the empty `catch` is
annotated "it's okay") but after the caught parse failure `customHeaders`
still holds the raw string, and `Object.entries` over a string yields
index/character pairs, so the raw value `"x"` injects the header `0: x`
into the outbound set.  This theorem evaluates the handler at that failing
input: the outbound headers are the filtered set `accept: text/html` plus
the spurious `0: x`. -/
theorem c1_malformed_override_injects_indexed_chars :
    (handle (fun t => if t == "https://example.com/" then some ⟨"example.com"⟩ else none)
        (fun _ => XCHParse.failed)
        ⟨200, "OK", [], ""⟩
        ⟨"GET", [("url", "https://example.com/")],
          [("x-custom-headers", "x"), ("accept", "text/html")], "http://p.example", none, none⟩
        ⟨none, none⟩).forwarded =
      some ⟨"https://example.com/", ⟨"example.com"⟩, "GET",
        [("accept", "text/html"), ("0", "x")]⟩ := by
  rfl

/-! ### Claim C2 -/

/-- C2, counterexample: the claim states that for a preflight (OPTIONS)
request to a resolvable, allowed target no forwarded call is ever issued.
At this concrete preflight request the handler does issue the forwarded
call (`forwarded` is populated). -/
theorem c2_preflight_fetch_issued_counterexample :
    ((handle (fun t => if t == "https://example.com/" then some ⟨"example.com"⟩ else none)
        (fun _ => XCHParse.failed)
        ⟨204, "No Content", [], ""⟩
        ⟨"OPTIONS", [("url", "https://example.com/")], [], "http://p.example", none, none⟩
        ⟨none, none⟩).forwarded).isSome = true := by
  rfl

/-- C2, amended: for every preflight (OPTIONS) request whose target
resolves and is allowed, the forwarded call to the target IS issued (with
the resolved URL and the transformed headers), but the preflight answer is
independent of the target's response: status 200, status text "OK", empty
body. -/
theorem c2_preflight_forwards_but_forces_200 (parseURL : String → Option URLRec)
    (xchParse : String → XCHParse) (originResp : OriginResponse) (req : Incoming)
    (env : Env) (s decoded : String) (u : URLRec)
    (hq : req.searchParams = [("url", s)]) (hse : s ≠ "")
    (hdec : decodeURIComponent s = some decoded) (hp : parseURL decoded = some u)
    (ha : isAllowedTarget u env = true) (hm : req.method = "OPTIONS") :
    (handle parseURL xchParse originResp req env).forwarded =
      some ⟨decoded, u, req.method, outboundHeaders xchParse req.headers⟩ ∧
    (handle parseURL xchParse originResp req env).response.status = 200 ∧
    (handle parseURL xchParse originResp req env).response.statusText = "OK" ∧
    (handle parseURL xchParse originResp req env).response.body = none := by
  rw [handle_eq_success parseURL xchParse originResp req env s decoded u hq hse hdec hp ha]
  have hmb : (req.method == "OPTIONS") = true := by simp [hm]
  simp [successResult, hmb]

/-- C2, witness: the amended theorem at a concrete preflight request whose
target would answer 500; the preflight answer is still 200. -/
theorem c2_witness :
    (handle (fun t => if t == "https://example.com/" then some ⟨"example.com"⟩ else none)
        (fun _ => XCHParse.failed) ⟨500, "Server Error", [], "boom"⟩
        ⟨"OPTIONS", [("url", "https://example.com/")], [], "http://p.example", none, none⟩
        ⟨none, none⟩).response.status = 200 :=
  (c2_preflight_forwards_but_forces_200
    (fun t => if t == "https://example.com/" then some ⟨"example.com"⟩ else none)
    (fun _ => XCHParse.failed) ⟨500, "Server Error", [], "boom"⟩
    ⟨"OPTIONS", [("url", "https://example.com/")], [], "http://p.example", none, none⟩
    ⟨none, none⟩ "https://example.com/" "https://example.com/" ⟨"example.com"⟩
    rfl (by decide) rfl rfl rfl rfl).2.1

/-! ### Claim C3 -/

/-- C3, counterexample: the claim includes "both sets unconfigured or
empty" among the Allowed cases.  With both `WHITELISTED_DOMAINS` and
`BLACKLISTED_DOMAINS` configured as empty lists, `[].includes(h) === false`
makes the whitelist check deny: the decision is Denied and the handler
answers 403. -/
theorem c3_both_empty_denied_counterexample :
    isAllowedTarget ⟨"example.com"⟩ ⟨some [], some []⟩ = false ∧
    (handle (fun t => if t == "https://example.com/" then some ⟨"example.com"⟩ else none)
        (fun _ => XCHParse.failed) ⟨200, "OK", [], ""⟩
        ⟨"GET", [("url", "https://example.com/")], [], "http://p.example", none, none⟩
        ⟨some [], some []⟩).response.status = 403 := by
  exact ⟨rfl, rfl⟩

/-- C3, amended: for every resolved target whose hostname is in no
configured deny set, and for which the allow set is either unconfigured or
contains the hostname, the decision is Allowed and the request is
forwarded.  (In particular both sets unconfigured allows everything; but a
configured-but-empty allow set denies every hostname, so "both sets empty"
is Denied, not Allowed.) -/
theorem c3_amended_allow_decision (parseURL : String → Option URLRec)
    (xchParse : String → XCHParse) (originResp : OriginResponse) (req : Incoming)
    (env : Env) (s decoded : String) (u : URLRec)
    (hq : req.searchParams = [("url", s)]) (hse : s ≠ "")
    (hdec : decodeURIComponent s = some decoded) (hp : parseURL decoded = some u)
    (hb : (jsIncludesOpt env.BLACKLISTED_DOMAINS u.hostname).getD false = false)
    (hw : env.WHITELISTED_DOMAINS = none ∨
      jsIncludesOpt env.WHITELISTED_DOMAINS u.hostname = some true) :
    isAllowedTarget u env = true ∧
    ((handle parseURL xchParse originResp req env).forwarded).isSome = true := by
  have ha := isAllowed_true_of_not_excluded u env hb hw
  refine ⟨ha, ?_⟩
  rw [handle_eq_success parseURL xchParse originResp req env s decoded u hq hse hdec hp ha]
  rfl

/-- C3, witness: the amended theorem at a concrete request with a
configured deny set not containing the hostname and no allow set. -/
theorem c3_witness :
    isAllowedTarget ⟨"example.com"⟩ ⟨none, some ["bad.example"]⟩ = true ∧
    ((handle (fun t => if t == "https://example.com/" then some ⟨"example.com"⟩ else none)
        (fun _ => XCHParse.failed) ⟨200, "OK", [], ""⟩
        ⟨"GET", [("url", "https://example.com/")], [], "http://p.example", none, none⟩
        ⟨none, some ["bad.example"]⟩).forwarded).isSome = true :=
  c3_amended_allow_decision
    (fun t => if t == "https://example.com/" then some ⟨"example.com"⟩ else none)
    (fun _ => XCHParse.failed) ⟨200, "OK", [], ""⟩
    ⟨"GET", [("url", "https://example.com/")], [], "http://p.example", none, none⟩
    ⟨none, some ["bad.example"]⟩ "https://example.com/" "https://example.com/"
    ⟨"example.com"⟩ rfl (by decide) rfl rfl (by decide) (Or.inl rfl)

/-! ### Claim C4 -/

/-- C4, counterexample: the claim states that any request with two or more
query parameters is answered 400 regardless of whether a `url` parameter
is among them.  But the missing-`url` check runs first: `?a=1&b=2` has two
query parameters and no `url`, and is answered with the 200 informational
page. -/
theorem c4_two_params_without_url_counterexample :
    ([("a", "1"), ("b", "2")] : List (String × String)).length = 2 ∧
    (handle (fun _ => none) (fun _ => XCHParse.failed) ⟨200, "OK", [], ""⟩
        ⟨"GET", [("a", "1"), ("b", "2")], [], "http://p.example", none, none⟩
        ⟨none, none⟩).response.status = 200 := by
  exact ⟨rfl, rfl⟩

/-- C4, amended: for every incoming request whose URL carries two or more
query parameters and whose `url` parameter is present with a non-empty
(first) value, the response status is 400 and nothing is forwarded. -/
theorem c4_amended_multi_query_400 (parseURL : String → Option URLRec)
    (xchParse : String → XCHParse) (originResp : OriginResponse) (req : Incoming)
    (env : Env) (s : String)
    (hfind : req.searchParams.find? (fun p => p.1 == "url") = some ("url", s))
    (hse : s ≠ "") (hlen : 1 < req.searchParams.length) :
    (handle parseURL xchParse originResp req env).response.status = 400 ∧
    (handle parseURL xchParse originResp req env).response.statusText = "Bad Request" ∧
    (handle parseURL xchParse originResp req env).forwarded = none := by
  rw [handle_eq_multi parseURL xchParse originResp req env s hfind hse hlen]
  exact ⟨rfl, rfl, rfl⟩

/-- C4, witness: the amended theorem at a concrete request carrying both a
non-empty `url` parameter and a second parameter. -/
theorem c4_witness :
    (handle (fun _ => none) (fun _ => XCHParse.failed) ⟨200, "OK", [], ""⟩
        ⟨"GET", [("url", "https://example.com/"), ("x", "1")], [], "http://p.example", none, none⟩
        ⟨none, none⟩).response.status = 400 :=
  (c4_amended_multi_query_400 (fun _ => none) (fun _ => XCHParse.failed) ⟨200, "OK", [], ""⟩
    ⟨"GET", [("url", "https://example.com/"), ("x", "1")], [], "http://p.example", none, none⟩
    ⟨none, none⟩ "https://example.com/" rfl (by decide) (by decide)).1

/-! ### Claim C5 -/

/-- C5, counterexample: the claim states that `Access-Control-Allow-Methods`
equals the incoming `Access-Control-Request-Method` value whenever that
header is present.  The code uses JavaScript truthiness (`value || default`),
so a present-but-empty header value falls back to the default list instead
of being echoed. -/
theorem c5_empty_acrm_counterexample :
    hGet [("access-control-request-method", "")] "access-control-request-method" = some "" ∧
    hGet ((handle (fun t => if t == "https://example.com/" then some ⟨"example.com"⟩ else none)
          (fun _ => XCHParse.failed) ⟨204, "No Content", [], ""⟩
          ⟨"OPTIONS", [("url", "https://example.com/")],
            [("access-control-request-method", "")], "http://p.example", none, none⟩
          ⟨none, none⟩).response.headers) "Access-Control-Allow-Methods" =
      some "GET, POST, PUT, DELETE, OPTIONS" := by
  exact ⟨rfl, rfl⟩

/-- C5, amended: for every preflight (OPTIONS) request to an allowed
target, the final response has status exactly 200, status text "OK" and an
empty body; `Access-Control-Allow-Methods` equals the incoming
`Access-Control-Request-Method` value when that header is present with a
non-empty value, and the default list "GET, POST, PUT, DELETE, OPTIONS"
when it is absent or empty; the proxy sets `Access-Control-Allow-Headers`
only when the incoming `Access-Control-Request-Headers` is present and
non-empty, leaving any origin-supplied value of that response header
untouched otherwise. -/
theorem c5_amended_preflight_response (parseURL : String → Option URLRec)
    (xchParse : String → XCHParse) (originResp : OriginResponse) (req : Incoming)
    (env : Env) (s decoded : String) (u : URLRec)
    (hq : req.searchParams = [("url", s)]) (hse : s ≠ "")
    (hdec : decodeURIComponent s = some decoded) (hp : parseURL decoded = some u)
    (ha : isAllowedTarget u env = true) (hm : req.method = "OPTIONS") :
    (handle parseURL xchParse originResp req env).response.status = 200 ∧
    (handle parseURL xchParse originResp req env).response.statusText = "OK" ∧
    (handle parseURL xchParse originResp req env).response.body = none ∧
    (∀ v, hGet req.headers "access-control-request-method" = some v → v ≠ "" →
      hGet (handle parseURL xchParse originResp req env).response.headers
        "Access-Control-Allow-Methods" = some v) ∧
    ((hGet req.headers "access-control-request-method" = none ∨
      hGet req.headers "access-control-request-method" = some "") →
      hGet (handle parseURL xchParse originResp req env).response.headers
        "Access-Control-Allow-Methods" = some "GET, POST, PUT, DELETE, OPTIONS") ∧
    (∀ v, hGet req.headers "access-control-request-headers" = some v → v ≠ "" →
      hGet (handle parseURL xchParse originResp req env).response.headers
        "Access-Control-Allow-Headers" = some v) ∧
    ((hGet req.headers "access-control-request-headers" = none ∨
      hGet req.headers "access-control-request-headers" = some "") →
      hGet (handle parseURL xchParse originResp req env).response.headers
        "Access-Control-Allow-Headers" =
        hGet originResp.headers "Access-Control-Allow-Headers") := by
  rw [handle_eq_success parseURL xchParse originResp req env s decoded u hq hse hdec hp ha]
  have hmb : (req.method == "OPTIONS") = true := by simp [hm]
  have hhd : (successResult xchParse originResp req decoded u).response.headers =
      finalResponseHeaders req originResp := rfl
  refine ⟨?_, ?_, ?_, ?_, ?_, ?_, ?_⟩
  · simp [successResult, hmb]
  · simp [successResult, hmb]
  · simp [successResult, hmb]
  · intro v hv hvne
    rw [hhd, hGet_final_acam req originResp hm, hv]
    simp [jsOr, beq_eq_false_iff_ne.mpr hvne]
  · intro h
    rw [hhd, hGet_final_acam req originResp hm]
    rcases h with h | h <;> rw [h] <;> simp [jsOr]
  · intro v hv hvne
    rw [hhd]
    exact hGet_final_acah_some req originResp hm v hv hvne
  · intro h
    rw [hhd]
    exact hGet_final_acah_untouched req originResp hm h

/-- C5, witness: the amended theorem at a concrete preflight carrying
`Access-Control-Request-Method: PUT`; the answer is 200 and echoes PUT. -/
theorem c5_witness :
    (handle (fun t => if t == "https://example.com/" then some ⟨"example.com"⟩ else none)
        (fun _ => XCHParse.failed) ⟨204, "No Content", [("x-a", "1")], ""⟩
        ⟨"OPTIONS", [("url", "https://example.com/")],
          [("access-control-request-method", "PUT"),
            ("access-control-request-headers", "x-a")], "http://p.example", none, none⟩
        ⟨none, none⟩).response.status = 200 ∧
    hGet (handle (fun t => if t == "https://example.com/" then some ⟨"example.com"⟩ else none)
        (fun _ => XCHParse.failed) ⟨204, "No Content", [("x-a", "1")], ""⟩
        ⟨"OPTIONS", [("url", "https://example.com/")],
          [("access-control-request-method", "PUT"),
            ("access-control-request-headers", "x-a")], "http://p.example", none, none⟩
        ⟨none, none⟩).response.headers "Access-Control-Allow-Methods" = some "PUT" := by
  have h := c5_amended_preflight_response
    (fun t => if t == "https://example.com/" then some ⟨"example.com"⟩ else none)
    (fun _ => XCHParse.failed) ⟨204, "No Content", [("x-a", "1")], ""⟩
    ⟨"OPTIONS", [("url", "https://example.com/")],
      [("access-control-request-method", "PUT"),
        ("access-control-request-headers", "x-a")], "http://p.example", none, none⟩
    ⟨none, none⟩ "https://example.com/" "https://example.com/" ⟨"example.com"⟩
    rfl (by decide) rfl rfl rfl rfl
  exact ⟨h.1, h.2.2.2.1 "PUT" rfl (by decide)⟩

/-! ### Claim C6 -/

/-- C6: for every resolved target whose hostname is in the configured deny
set, the response is 403 Forbidden and nothing is forwarded — with no
hypothesis on the allow set, so in particular even when the same hostname
is also in a configured allow set (deny takes precedence). -/
theorem c6_deny_takes_precedence_403 (parseURL : String → Option URLRec)
    (xchParse : String → XCHParse) (originResp : OriginResponse) (req : Incoming)
    (env : Env) (s decoded : String) (u : URLRec) (bl : List String)
    (hq : req.searchParams = [("url", s)]) (hse : s ≠ "")
    (hdec : decodeURIComponent s = some decoded) (hp : parseURL decoded = some u)
    (hbl : env.BLACKLISTED_DOMAINS = some bl) (hmem : u.hostname ∈ bl) :
    (handle parseURL xchParse originResp req env).response.status = 403 ∧
    (handle parseURL xchParse originResp req env).response.statusText = "Forbidden" ∧
    (handle parseURL xchParse originResp req env).forwarded = none := by
  have ha := isAllowed_false_of_denied u env bl hbl hmem
  rw [handle_eq_denied parseURL xchParse originResp req env s decoded u hq hse hdec hp ha]
  exact ⟨rfl, rfl, rfl⟩

/-- C6, witness: the theorem at a concrete request whose hostname is in
both the deny set and the allow set; the answer is still 403. -/
theorem c6_witness :
    (handle (fun t => if t == "https://example.com/" then some ⟨"example.com"⟩ else none)
        (fun _ => XCHParse.failed) ⟨200, "OK", [], ""⟩
        ⟨"GET", [("url", "https://example.com/")], [], "http://p.example", none, none⟩
        ⟨some ["example.com"], some ["example.com"]⟩).response.status = 403 :=
  (c6_deny_takes_precedence_403
    (fun t => if t == "https://example.com/" then some ⟨"example.com"⟩ else none)
    (fun _ => XCHParse.failed) ⟨200, "OK", [], ""⟩
    ⟨"GET", [("url", "https://example.com/")], [], "http://p.example", none, none⟩
    ⟨some ["example.com"], some ["example.com"]⟩ "https://example.com/"
    "https://example.com/" ⟨"example.com"⟩ ["example.com"]
    rfl (by decide) rfl rfl rfl (by decide)).1

/-! ### Claim C7 -/

/-- C7: for every forwarded request, any outbound header pair whose name
matches one of the filter patterns (begins with "origin", contains
"eferer", begins with "cf-", begins with "x-forw", begins with
"x-custom-headers" — names from `entries()` are lowercase, so the match is
case-insensitive for incoming headers) can only be present because the
`X-Custom-Headers` override mechanism itself injected it: it is never a
forwarded incoming header.  In particular `CF-Connecting-IP` and `Referer`
are never forwarded.  And when the incoming `X-Custom-Headers` value
parses to the object mapping "cookie" to "a=1", the outbound set contains
`cookie: a=1` even if no cookie header existed on the inbound request. -/
theorem c7_header_filter_and_override (parseURL : String → Option URLRec)
    (xchParse : String → XCHParse) (originResp : OriginResponse) (req : Incoming)
    (env : Env) (r : OutboundRequest)
    (hf : (handle parseURL xchParse originResp req env).forwarded = some r) :
    (∀ k v, (k, v) ∈ r.headers → isFilteredOut k = true →
      ∃ kvs, customEntries xchParse req.headers = some kvs ∧ (k, v) ∈ kvs) ∧
    (∀ raw, hGet req.headers "X-Custom-Headers" = some raw →
      xchParse raw = XCHParse.entries [("cookie", "a=1")] →
      dictGet r.headers "cookie" = some "a=1") := by
  have hout := forwarded_headers_eq parseURL xchParse originResp req env r hf
  constructor
  · intro k v hmem hfil
    rw [hout] at hmem
    unfold outboundHeaders at hmem
    cases hce : customEntries xchParse req.headers with
    | none =>
      simp only [hce] at hmem
      have hko := mem_filteredHeadersOf req.headers hmem
      rw [hfil] at hko
      exact absurd hko (by simp)
    | some kvs =>
      simp only [hce] at hmem
      rcases mem_foldl_dictSet kvs (filteredHeadersOf req.headers) hmem with h1 | h1
      · have hko := mem_filteredHeadersOf req.headers h1
        rw [hfil] at hko
        exact absurd hko (by simp)
      · exact ⟨kvs, rfl, h1⟩
  · intro raw hraw hparse
    rw [hout]
    simp only [outboundHeaders, customEntries, hraw, hparse, List.foldl_cons, List.foldl_nil]
    exact dictGet_dictSet_self _ _ _

/-- C7, witness: the theorem at a concrete request carrying
`CF-Connecting-IP`, `Referer` and an `X-Custom-Headers` cookie override:
the filter pattern matches `cf-connecting-ip`, and the computed outbound
set is exactly `accept: x` plus the injected `cookie: a=1`. -/
theorem c7_witness :
    isFilteredOut "cf-connecting-ip" = true ∧
    dictGet [("accept", "x"), ("cookie", "a=1")] "cookie" = some "a=1" :=
  ⟨by decide,
    (c7_header_filter_and_override
      (fun t => if t == "https://example.com/" then some ⟨"example.com"⟩ else none)
      (fun s => if s == "\x7b\"cookie\":\"a=1\"\x7d" then
        XCHParse.entries [("cookie", "a=1")] else XCHParse.failed)
      ⟨200, "OK", [], ""⟩
      ⟨"GET", [("url", "https://example.com/")],
        [("cf-connecting-ip", "1.2.3.4"), ("referer", "r"),
          ("x-custom-headers", "\x7b\"cookie\":\"a=1\"\x7d"), ("accept", "x")],
        "http://p.example", none, none⟩
      ⟨none, none⟩
      ⟨"https://example.com/", ⟨"example.com"⟩, "GET", [("accept", "x"), ("cookie", "a=1")]⟩
      rfl).2 "\x7b\"cookie\":\"a=1\"\x7d" rfl rfl⟩

/-! ### Claim C8 -/

/-- C8: for every non-preflight proxied response (origin response header
names being distinct, as `Headers.entries()` guarantees), the
`x-received-headers` response header holds the JSON serialization of
exactly the header pairs of the origin's response, captured before CORS
layering, and `Access-Control-Expose-Headers` is the comma-joined list of
every origin response header name followed by "x-received-headers". -/
theorem c8_received_headers_snapshot (parseURL : String → Option URLRec)
    (xchParse : String → XCHParse) (originResp : OriginResponse) (req : Incoming)
    (env : Env) (s decoded : String) (u : URLRec)
    (hq : req.searchParams = [("url", s)]) (hse : s ≠ "")
    (hdec : decodeURIComponent s = some decoded) (hp : parseURL decoded = some u)
    (ha : isAllowedTarget u env = true) (hnp : req.method ≠ "OPTIONS")
    (hnd : (originResp.headers.map Prod.fst).Nodup) :
    hGet (handle parseURL xchParse originResp req env).response.headers
      "x-received-headers" = some (jsonStringifyObj originResp.headers) ∧
    hGet (handle parseURL xchParse originResp req env).response.headers
      "Access-Control-Expose-Headers" =
      some (String.intercalate ","
        (originResp.headers.map (fun p => p.1) ++ ["x-received-headers"])) := by
  rw [handle_eq_success parseURL xchParse originResp req env s decoded u hq hse hdec hp ha]
  have hhd : (successResult xchParse originResp req decoded u).response.headers =
      finalResponseHeaders req originResp := rfl
  constructor
  · rw [hhd, hGet_final_xrh, foldl_dictSet_nodup originResp.headers hnd]
  · rw [hhd, hGet_final_aceh]

/-- C8, witness: the theorem at a concrete GET whose origin answers with
`content-type` and `x-foo` headers; the snapshot is their JSON dump and
the exposure list joins their names with x-received-headers. -/
theorem c8_witness :
    hGet (handle (fun t => if t == "https://example.com/" then some ⟨"example.com"⟩ else none)
        (fun _ => XCHParse.failed)
        ⟨200, "OK", [("content-type", "text/plain"), ("x-foo", "bar")], "hi"⟩
        ⟨"GET", [("url", "https://example.com/")], [], "http://p.example", none, none⟩
        ⟨none, none⟩).response.headers "x-received-headers" =
      some "\x7b\"content-type\":\"text/plain\",\"x-foo\":\"bar\"\x7d" ∧
    hGet (handle (fun t => if t == "https://example.com/" then some ⟨"example.com"⟩ else none)
        (fun _ => XCHParse.failed)
        ⟨200, "OK", [("content-type", "text/plain"), ("x-foo", "bar")], "hi"⟩
        ⟨"GET", [("url", "https://example.com/")], [], "http://p.example", none, none⟩
        ⟨none, none⟩).response.headers "Access-Control-Expose-Headers" =
      some "content-type,x-foo,x-received-headers" := by
  have h := c8_received_headers_snapshot
    (fun t => if t == "https://example.com/" then some ⟨"example.com"⟩ else none)
    (fun _ => XCHParse.failed)
    ⟨200, "OK", [("content-type", "text/plain"), ("x-foo", "bar")], "hi"⟩
    ⟨"GET", [("url", "https://example.com/")], [], "http://p.example", none, none⟩
    ⟨none, none⟩ "https://example.com/" "https://example.com/" ⟨"example.com"⟩
    rfl (by decide) rfl rfl rfl (by decide) (by decide)
  exact ⟨h.1, h.2⟩

/-! ### Claim C9 -/

/-- C9: for every incoming request whose (first) `url` query parameter is
present with the empty string as its value, the request is treated as
having no target: the handler returns the 200 informational page and
forwards nothing (no 400 InvalidURL error). -/
theorem c9_empty_url_param_info_page (parseURL : String → Option URLRec)
    (xchParse : String → XCHParse) (originResp : OriginResponse) (req : Incoming)
    (env : Env)
    (hfind : req.searchParams.find? (fun p => p.1 == "url") = some ("url", "")) :
    handle parseURL xchParse originResp req env =
      { response := infoResponse req, forwarded := none } ∧
    (infoResponse req).status = 200 := by
  exact ⟨handle_eq_info_empty parseURL xchParse originResp req env hfind, rfl⟩

/-- C9, witness: the theorem at a concrete request with `?url=`. -/
theorem c9_witness :
    (handle (fun _ => none) (fun _ => XCHParse.failed) ⟨200, "OK", [], ""⟩
        ⟨"GET", [("url", "")], [], "http://p.example", none, none⟩
        ⟨none, none⟩).response.status = 200 := by
  have h := c9_empty_url_param_info_page (fun _ => none) (fun _ => XCHParse.failed)
    ⟨200, "OK", [], ""⟩ ⟨"GET", [("url", "")], [], "http://p.example", none, none⟩
    ⟨none, none⟩ rfl
  rw [h.1]
  exact h.2

/-! ### Claim C10 -/

/-- C10: the `url` value is percent-decoded a second time by the explicit
`decodeURIComponent` before URL construction; consequently for every
request whose (first) `url` parameter value — already once-decoded by the
query parsing — contains a "%" not followed by two hexadecimal digits, the
response status is 400 and nothing is forwarded, regardless of the URL
parser (in particular even when that once-decoded value is itself a valid
absolute URL). -/
theorem c10_bad_percent_400 (parseURL : String → Option URLRec)
    (xchParse : String → XCHParse) (originResp : OriginResponse) (req : Incoming)
    (env : Env) (s : String)
    (hfind : req.searchParams.find? (fun p => p.1 == "url") = some ("url", s))
    (hbad : hasBadPercent s.data = true) :
    (handle parseURL xchParse originResp req env).response.status = 400 ∧
    (handle parseURL xchParse originResp req env).forwarded = none := by
  have hse : s ≠ "" := by
    intro he
    rw [he] at hbad
    exact absurd hbad (by decide)
  by_cases hlen : 1 < req.searchParams.length
  · rw [handle_eq_multi parseURL xchParse originResp req env s hfind hse hlen]
    exact ⟨rfl, rfl⟩
  · have hdec : decodeURIComponent s = none := decodeURIComponent_none_of_bad s hbad
    rw [handle_eq_invalid parseURL xchParse originResp req env s hfind hse hlen hdec]
    exact ⟨rfl, rfl⟩

/-- C10, witness: the theorem at a concrete request whose once-decoded
`url` value is a syntactically valid absolute URL containing a bad percent
sequence, against a URL-parser oracle that accepts everything: the answer
is still 400. -/
theorem c10_witness :
    (handle (fun _ => some ⟨"example.com"⟩) (fun _ => XCHParse.failed) ⟨200, "OK", [], ""⟩
        ⟨"GET", [("url", "https://example.com/a%zz")], [], "http://p.example", none, none⟩
        ⟨none, none⟩).response.status = 400 :=
  (c10_bad_percent_400 (fun _ => some ⟨"example.com"⟩) (fun _ => XCHParse.failed)
    ⟨200, "OK", [], ""⟩
    ⟨"GET", [("url", "https://example.com/a%zz")], [], "http://p.example", none, none⟩
    ⟨none, none⟩ "https://example.com/a%zz" rfl (by decide)).1

end CFProxy
